import Mathlib

set_option maxRecDepth 100000
set_option maxHeartbeats 1000000
set_option synthInstance.maxHeartbeats 200000

/-!
Verification of the depth-stream reconciliation core of the OKEx V3 websocket
SDK (`ws_base.go`).  The Go code is shallowly embedded: the red-black trees
holding the two book sides become association lists kept in comparator order,
Go's in-place mutation becomes explicit state passing, float64 prices are
modelled as exact rationals, and a function that can return an error or panic
returns an explicit `Outcome`.
-/

/-- A Go `interface{}` value as it occurs in a depth level (`[4]interface{}`).
JSON decoding yields strings or float64 numbers; absent components are nil.
`vnum` carries the numeric value as an exact rational. -/
inductive GoVal where
  | vstr (s : String)
  | vnum (q : ℚ)
  | vnil
deriving DecidableEq

/-- Rendering of a `GoVal` under Go's `%v` formatting, as used by
`fmt.Sprintf` inside `calCrc32`.  A string renders as itself and nil as
`<nil>`.  A float64 renders under the shortest `%g` form; every numeric
component exercised in this development is integer valued, where `%g` prints
exactly the integer numeral, which is the case modelled here (a non-integer
rational gets a fallback rendering that no theorem relies upon). -/
def goValStr : GoVal → String
  | .vstr s => s
  | .vnum q => if q.den = 1 then toString q.num else toString q.num ++ "/" ++ toString q.den
  | .vnil => "<nil>"

/-- One depth level: Go's `[4]interface{}` (price, size, and two opaque
components that the reconciler never inspects). -/
abbrev Row := GoVal × GoVal × GoVal × GoVal

/-- `fmt.Sprintf("%v:%v", row[0], row[1])` — the `price:size` chunk of one
level, used by both branches of `calCrc32`. -/
def rowPS (r : Row) : String := goValStr r.1 ++ ":" ++ goValStr r.2.1

/-- `bytes.Buffer.WriteString` with the leading-colon guard of `calCrc32`:
a `":"` separator is written first whenever the buffer is non-empty. -/
def bufAppend (buf chunk : String) : String :=
  (if buf.length > 0 then buf ++ ":" else buf) ++ chunk

/-- A list of strings joined by `":"` (the spec's "joined by `:`"). -/
def joinColon : List String → String
  | [] => ""
  | [c] => c
  | c :: c2 :: cs => c ++ ":" ++ joinColon (c2 :: cs)

/-- Byte sequence of a string.  Every string hashed in this development is
ASCII, where the UTF-8 bytes coincide with the character code points. -/
def strBytes (s : String) : List Nat := s.data.map Char.toNat

/-- The reflected IEEE CRC-32 polynomial, as used by Go's
`crc32.ChecksumIEEE`. -/
def crc32Poly : Nat := 0xEDB88320

/-- One bit round of the reflected CRC-32 computation. -/
def crc32Round (c : Nat) : Nat :=
  if c % 2 = 1 then (c / 2) ^^^ crc32Poly else c / 2

/-- Folding one byte into the CRC state: xor the byte in, then run eight bit
rounds. -/
def crc32Byte (c b : Nat) : Nat :=
  crc32Round^[8] (c ^^^ b % 256)

/-- `crc32.ChecksumIEEE`: CRC-32 with the IEEE polynomial over a byte
sequence (initial state and final xor mask `0xFFFFFFFF`). -/
def crc32 (bs : List Nat) : Nat :=
  (bs.foldl crc32Byte 0xFFFFFFFF) ^^^ 0xFFFFFFFF

/-- Go's `int32(u)` conversion of an unsigned 32-bit value: two's-complement
wraparound into `[-2^31, 2^31)`. -/
def toInt32 (u : Nat) : Int :=
  let v : Nat := u % 2 ^ 32
  if v < 2 ^ 31 then (v : Int) else (v : Int) - 2 ^ 32

/-- Translation of `calCrc32` (ws_base.go:195-233).  Each side is truncated
to its first 25 entries.  With equal truncated lengths the buffer interleaves
`bid:bid:ask:ask` chunks per index (the Go index loop over the two
equal-length slices is rendered as a fold over their zip); otherwise all bid
`price:size` chunks are written and then all ask chunks, each write guarded
by the buffer-non-empty colon rule.  The checksum is the IEEE CRC-32 of the
buffer reinterpreted as a signed 32-bit integer. -/
def calCrc32 (askDepths bidDepths : List Row) : String × Int :=
  let crcAsk := askDepths.take 25
  let crcBid := bidDepths.take 25
  let buf :=
    if crcAsk.length = crcBid.length then
      (crcBid.zip crcAsk).foldl
        (fun b p => bufAppend b (rowPS p.1 ++ ":" ++ rowPS p.2)) ""
    else
      crcAsk.foldl (fun b r => bufAppend b (rowPS r))
        (crcBid.foldl (fun b r => bufAppend b (rowPS r)) "")
  (buf, toInt32 (crc32 (strBytes buf)))

/-- The pre-hash string as the specification words it: truncate each side to
at most its first 25 entries; with equal truncated lengths interleave per
index as `bidPrice:bidSize:askPrice:askSize` joined by `:` across indices,
otherwise emit all bid `price:size` pairs followed by all ask `price:size`
pairs, all joined by `:`. -/
def preHash (bidDepths askDepths : List Row) : String :=
  let tb := bidDepths.take 25
  let ta := askDepths.take 25
  if tb.length = ta.length then
    joinColon ((tb.zip ta).map (fun p => rowPS p.1 ++ ":" ++ rowPS p.2))
  else
    joinColon (tb.map rowPS ++ ta.map rowPS)

/-- The numeric value of a list of decimal digit characters. -/
def natOfDigits (cs : List Char) : Nat :=
  cs.foldl (fun n c => n * 10 + (c.toNat - 48)) 0

/-- Exponent part of a float literal: optionally signed non-empty digit
string. -/
def parseExp (cs : List Char) : Option Int :=
  match cs with
  | '+' :: ds => if ds ≠ [] ∧ ds.all Char.isDigit then some (natOfDigits ds) else none
  | '-' :: ds => if ds ≠ [] ∧ ds.all Char.isDigit then some (-(natOfDigits ds : Int)) else none
  | ds => if ds ≠ [] ∧ ds.all Char.isDigit then some (natOfDigits ds) else none

/-- Unsigned decimal mantissa with optional fraction and exponent:
`digits [. digits] [(e|E) exp]`, at least one digit required. -/
def parseDecCore (cs : List Char) : Option ℚ :=
  let ip := cs.takeWhile Char.isDigit
  let r1 := cs.dropWhile Char.isDigit
  match r1 with
  | [] => if ip.isEmpty then none else some (natOfDigits ip)
  | '.' :: r2 =>
    let fp := r2.takeWhile Char.isDigit
    let r3 := r2.dropWhile Char.isDigit
    if ip.isEmpty && fp.isEmpty then none
    else
      let mant : ℚ := (natOfDigits ip : ℚ) + (natOfDigits fp : ℚ) / ((10 : ℚ) ^ fp.length)
      match r3 with
      | [] => some mant
      | e :: r4 =>
        if (e = 'e' ∨ e = 'E') ∧ ¬ ip.isEmpty ∨ (e = 'e' ∨ e = 'E') ∧ ¬ fp.isEmpty then
          (parseExp r4).map (fun k => mant * (10 : ℚ) ^ k)
        else none
  | e :: r4 =>
    if (e = 'e' ∨ e = 'E') ∧ ¬ ip.isEmpty then
      (parseExp r4).map (fun k => (natOfDigits ip : ℚ) * (10 : ℚ) ^ k)
    else none

/-- `strconv.ParseFloat(s, 10)` as called by `mergeDepths` (any bitSize other
than 32 means float64).  Modelled over exact rationals: a finite decimal
literal (optional sign, decimal mantissa, optional exponent) parses to its
exact value, anything else fails.  Float64 rounding, hex floats, `Inf`, `NaN`
and underscore separators are outside the fragment this code feeds it. -/
def parseFloat (s : String) : Option ℚ :=
  match s.data with
  | '+' :: cs => parseDecCore cs
  | '-' :: cs => (parseDecCore cs).map Neg.neg
  | cs => parseDecCore cs

/-- Modelled from the spec: `StringToInt64` is the repository's numeric
helper for size strings and is not under src/; per the spec's "standard"
numeric parsing it is `strconv.ParseInt(s, 10, 64)` with the error discarded,
so a non-integer string yields 0 and an out-of-range value is clamped to the
int64 range. -/
def StringToInt64 (s : String) : Int :=
  let core : List Char → Option Int := fun ds =>
    if ds ≠ [] ∧ ds.all Char.isDigit then some (natOfDigits ds) else none
  let v : Option Int :=
    match s.data with
    | '+' :: ds => core ds
    | '-' :: ds => (core ds).map Neg.neg
    | ds => core ds
  match v with
  | none => 0
  | some i => max (-(2 ^ 63)) (min i (2 ^ 63 - 1))

/-- The two price comparators handed to the red-black trees. -/
inductive Cmp where
  | bidC
  | askC
deriving DecidableEq

/-- `bidPriceLevelComparator` (descending: best bid first) and
`askPriceLevelComparator` (ascending: best ask first) from ws_base.go. -/
def Cmp.apply : Cmp → ℚ → ℚ → Int
  | .bidC, l, r => if l < r then 1 else if l > r then -1 else 0
  | .askC, l, r => if l < r then -1 else if l > r then 1 else 0

/-- A `gods` red-black tree with a price comparator, modelled as its in-order
entry list (key together with the stored `[4]interface{}` level).  `Put`,
`Remove`, `Left`, `Size` and in-order iteration below preserve and use this
list exactly as the tree does. -/
structure RbTree where
  cmp :  Cmp
  entries : List (ℚ × Row)
deriving DecidableEq

/-- `RbTree.Put` on the in-order entry list: insert before the first key
comparing greater, overwrite a key comparing equal. -/
def putList (c : Cmp) (k : ℚ) (v : Row) : List (ℚ × Row) → List (ℚ × Row)
  | [] => [(k, v)]
  | e :: rest =>
    if c.apply k e.1 < 0 then (k, v) :: e :: rest
    else if c.apply k e.1 = 0 then (k, v) :: rest
    else e :: putList c k v rest

/-- `RbTree.Remove` on the in-order entry list: drop the entry whose key
compares equal, if any. -/
def removeList (c : Cmp) (k : ℚ) : List (ℚ × Row) → List (ℚ × Row)
  | [] => []
  | e :: rest => if c.apply k e.1 = 0 then rest else e :: removeList c k rest

/-- Lookup by comparator equality (the tree's `Get`). -/
def getList (c : Cmp) (k : ℚ) : List (ℚ × Row) → Option Row
  | [] => none
  | e :: rest => if c.apply k e.1 = 0 then some e.2 else getList c k rest

def RbTree.put (t : RbTree) (k : ℚ) (v : Row) : RbTree := ⟨t.cmp, putList t.cmp k v t.entries⟩

def RbTree.remove (t : RbTree) (k : ℚ) : RbTree := ⟨t.cmp, removeList t.cmp k t.entries⟩

def RbTree.get (t : RbTree) (k : ℚ) : Option Row := getList t.cmp k t.entries

/-- `RbTree.Left()`: the minimum node in comparator order, `none` for the empty
tree (where Go returns a nil pointer). -/
def RbTree.left (t : RbTree) : Option (ℚ × Row) := t.entries.head?

def RbTree.empty (c : Cmp) : RbTree := ⟨c, []⟩

/-- `first25Updates` (ws_base.go:117-134): the first `min(size, 25)` values
in comparator order. -/
def first25Updates (t : RbTree) : List Row := (t.entries.take 25).map (fun e => e.2)

/-- Result of a Go call that can return normally, return an error, or panic
(nil dereference / failed type assertion). -/
inductive Outcome where
  | ok
  | fail (msg : String)
  | gopanic (msg : String)
deriving DecidableEq

def Outcome.isOk : Outcome → Bool
  | .ok => true
  | _ => false

def Outcome.isFail : Outcome → Bool
  | .fail _ => true
  | _ => false

def Outcome.isGopanic : Outcome → Bool
  | .gopanic _ => true
  | _ => false

/-- The error text of `mergeDepths` for an unparsable price (the Go message
interpolates the strconv error, which names the offending literal). -/
def badPriceMsg (s : String) : String := "Bad price, check why. err: " ++ s

/-- The body of `mergeDepths`' loop for one level: assert the price to
string and parse it (parse failure is an error, a non-string price is a
panic of the type assertion), assert the size to string, then remove the
key when the size is 0 and upsert the level otherwise. -/
def mergeStep (t : RbTree) (newItem : Row) : RbTree × Outcome :=
  match newItem.1 with
  | .vstr ps =>
    match parseFloat ps with
    | none => (t, .fail (badPriceMsg ps))
    | some newPrice =>
      match newItem.2.1 with
      | .vstr ns =>
        if StringToInt64 ns = 0 then (t.remove newPrice, .ok)
        else (t.put newPrice newItem, .ok)
      | _ => (t, .gopanic "interface conversion: interface is not string")
  | _ => (t, .gopanic "interface conversion: interface is not string")

/-- Translation of `mergeDepths` (ws_base.go:149-167).  Levels are applied in
order and mutate the tree in place; the first failing level stops the loop
with the tree reflecting every level already applied. -/
def mergeDepths (t : RbTree) (newDepths : List Row) : RbTree × Outcome :=
  match newDepths with
  | [] => (t, .ok)
  | r :: rest =>
    match mergeStep t r with
    | (t2, .ok) => mergeDepths t2 rest
    | (t2, o) => (t2, o)

/-- `WSDepthItem` (ws_base.go:109-115). -/
structure WSDepthItem where
  InstrumentId : String
  Bids : RbTree
  Asks : RbTree
  Timestamp : String
  Checksum : Int
deriving DecidableEq

/-- `WsDepthUpdates` (ws_base.go:241-247). -/
structure WsDepthUpdates where
  InstrumentId : String
  Asks : List Row
  Bids : List Row
  Timestamp : String
  Checksum : Int
deriving DecidableEq

def chkErrMsg (buf : String) : String := "Checksum's not correct. LocalString: " ++ buf

/-- Translation of `WSDepthItem.update` (ws_base.go:169-193).  Merge the ask
deltas, then the bid deltas (an early failure leaves the trees as mutated so
far), recompute the checksum over the post-merge top-25 of each side, and
commit the incoming checksum and timestamp only when it matches. -/
def WSDepthItem.update (di : WSDepthItem) (newDI : WsDepthUpdates) : WSDepthItem × Outcome :=
  match mergeDepths di.Asks newDI.Asks with
  | (ta, .ok) =>
    match mergeDepths di.Bids newDI.Bids with
    | (tb, .ok) =>
      let pr := calCrc32 (first25Updates ta) (first25Updates tb)
      if pr.2 ≠ newDI.Checksum then
        ({ di with Asks := ta, Bids := tb }, .fail (chkErrMsg pr.1))
      else
        ({ di with Asks := ta, Bids := tb, Checksum := newDI.Checksum, Timestamp := newDI.Timestamp }, .ok)
    | (tb, o) => ({ di with Asks := ta, Bids := tb }, o)
  | (ta, o) => ({ di with Asks := ta }, o)

/-- Translation of `newDepthItem` (ws_base.go:136-147): build an item with
empty sides carrying the incoming checksum and timestamp, then apply the
updates.  The source discards `update`'s error return, so only a runtime
panic escapes. -/
def newDepthItem (updates : WsDepthUpdates) : WSDepthItem × Outcome :=
  let item : WSDepthItem :=
    { InstrumentId := updates.InstrumentId
      Checksum := updates.Checksum
      Timestamp := updates.Timestamp
      Bids := RbTree.empty .bidC
      Asks := RbTree.empty .askC }
  let r := item.update updates
  (r.1, if r.2.isGopanic then r.2 else .ok)

/-- Bool test for `strings.Contains`. -/
def containsSeq (needle hay : List Char) : Bool :=
  hay.tails.any (fun t => needle.isPrefixOf t)

/-- `strings.Contains hay sub`. -/
def strContains (hay sub : String) : Bool := containsSeq sub.data hay.data

/-- `WSDepthTableResponse` (ws_base.go:235-239). -/
structure WSDepthTableResponse where
  Table : String
  Action : String
  Data : List WsDepthUpdates
deriving DecidableEq

/-- `WSDepthTableResponse.Valid` (ws_base.go:249-251). -/
def WSDepthTableResponse.Valid (r : WSDepthTableResponse) : Bool :=
  (!r.Table.isEmpty || !r.Action.isEmpty) && strContains r.Table "depth" && !r.Data.isEmpty

/-- `WSHotDepths` (ws_base.go:253-256); the Go map is modelled as an
association list with first-match lookup and in-place overwrite. -/
structure WSHotDepths where
  Table : String
  DepthMap : List (String × WSDepthItem)
deriving DecidableEq

def NewWSHotDepths (tb : String) : WSHotDepths := ⟨tb, []⟩

def mapGet (m : List (String × WSDepthItem)) (k : String) : Option WSDepthItem :=
  match m with
  | [] => none
  | p :: rest => if p.1 = k then some p.2 else mapGet rest k

def mapPut (m : List (String × WSDepthItem)) (k : String) (v : WSDepthItem) :
    List (String × WSDepthItem) :=
  match m with
  | [] => [(k, v)]
  | p :: rest => if p.1 = k then (k, v) :: rest else p :: mapPut rest k v

/-- The `"partial"` arm of `loadWSDepthTableResponse` (ws_base.go:276-286):
for each entry validate the checksum over the supplied raw level lists and
install a brand-new book on success; a mismatch returns the error
immediately. -/
def snapshotLoop (d : WSHotDepths) (data : List WsDepthUpdates) : WSHotDepths × Outcome :=
  match data with
  | [] => (d, .ok)
  | u :: rest =>
    let pr := calCrc32 u.Asks u.Bids
    if pr.2 = u.Checksum then
      match newDepthItem u with
      | (ni, .ok) => snapshotLoop { d with DepthMap := mapPut d.DepthMap u.InstrumentId ni } rest
      | (_, o) => (d, o)
    else (d, .fail (chkErrMsg pr.1))

/-- The `"update"` arm of `loadWSDepthTableResponse` (ws_base.go:288-299):
merge into the existing book when the instrument is known (the book object is
mutated even when the merge errors) and build a fresh item via
`newDepthItem` otherwise. -/
def updateLoop (d : WSHotDepths) (data : List WsDepthUpdates) : WSHotDepths × Outcome :=
  match data with
  | [] => (d, .ok)
  | u :: rest =>
    match mapGet d.DepthMap u.InstrumentId with
    | some oldDI =>
      match oldDI.update u with
      | (di2, .ok) => updateLoop { d with DepthMap := mapPut d.DepthMap u.InstrumentId di2 } rest
      | (di2, o) => ({ d with DepthMap := mapPut d.DepthMap u.InstrumentId di2 }, o)
    | none =>
      match newDepthItem u with
      | (ni, .ok) => updateLoop { d with DepthMap := mapPut d.DepthMap u.InstrumentId ni } rest
      | (_, o) => (d, o)

/-- The trailing best-bid/best-ask loop of `loadWSDepthTableResponse`
(ws_base.go:305-312).  `DepthMap[...]` is dereferenced and `Left()` of each
side is dereferenced with no nil checks, so a missing book or an empty side
panics; otherwise `bid1 >= ask1` returns the integrity error. -/
def finalLoop (d : WSHotDepths) (data : List WsDepthUpdates) : Outcome :=
  match data with
  | [] => .ok
  | u :: rest =>
    match mapGet d.DepthMap u.InstrumentId with
    | none => .gopanic "runtime error: invalid memory address or nil pointer dereference"
    | some depth =>
      match depth.Asks.left with
      | none => .gopanic "runtime error: invalid memory address or nil pointer dereference"
      | some a1 =>
        match depth.Bids.left with
        | none => .gopanic "runtime error: invalid memory address or nil pointer dereference"
        | some b1 =>
          if b1.1 ≥ a1.1 then .fail "bid1 larger than bid1"
          else finalLoop d rest

/-- The action switch of `loadWSDepthTableResponse` (ws_base.go:275-303):
`"partial"` re-assigns the (equal) table name and runs the snapshot loop,
`"update"` runs the update loop, any other action falls through doing
nothing. -/
def depthSwitch (d : WSHotDepths) (r : WSDepthTableResponse) : WSHotDepths × Outcome :=
  if r.Action = "partial" then snapshotLoop { d with Table := r.Table } r.Data
  else if r.Action = "update" then updateLoop d r.Data
  else (d, .ok)

/-- Translation of `WSHotDepths.loadWSDepthTableResponse`
(ws_base.go:265-315): table match check, validity check, the action switch,
then (only when the switch returned no error) the best-bid/best-ask loop over
every data entry. -/
def WSHotDepths.loadWSDepthTableResponse (d : WSHotDepths) (r : WSDepthTableResponse) :
    WSHotDepths × Outcome :=
  if d.Table ≠ r.Table then
    (d, .fail "Loading WSDepthTableResponse failed becoz of WSTableResponse not matched with WSHotDepths")
  else if !r.Valid then (d, .fail "WSDepthTableResponse's format error.")
  else
    match depthSwitch d r with
    | (d2, .ok) => (d2, finalLoop d2 r.Data)
    | (d2, o) => (d2, o)

/-- `WSEventResponse` (ws_base.go:89-93). -/
structure WSEventResponse where
  Event : String
  Success : String
  Channel : String
deriving DecidableEq

/-- `WSEventResponse.Valid` (ws_base.go:95-97). -/
def WSEventResponse.Valid (r : WSEventResponse) : Bool :=
  (!r.Event.isEmpty && !r.Channel.isEmpty) || r.Event == "login"

/-- `WSTableResponse` (ws_base.go:99-103); the opaque `data` entries are
`GoVal`s. -/
structure WSTableResponse where
  Table : String
  Action : String
  Data : List GoVal
deriving DecidableEq

/-- `WSTableResponse.Valid` (ws_base.go:105-107). -/
def WSTableResponse.Valid (r : WSTableResponse) : Bool :=
  (!r.Table.isEmpty || !r.Action.isEmpty) && !r.Data.isEmpty

/-- `WSErrorResponse` (ws_base.go:317-321). -/
structure WSErrorResponse where
  Event : String
  Message : String
  ErrorCode : Int
deriving DecidableEq

/-- `WSErrorResponse.Valid` (ws_base.go:323-325). -/
def WSErrorResponse.Valid (r : WSErrorResponse) : Bool :=
  !r.Event.isEmpty && !r.Message.isEmpty && decide (r.ErrorCode ≥ 30000)

deriving instance DecidableEq for Except

/-- Modelled from the spec: `JsonBytes2Struct`, the repository's generic JSON
helper, is not under src/.  A raw inbound message is modelled by its literal
text together with the outcome of structurally decoding it into each of the
four candidate shapes (`Except.error` carrying the decode error text). -/
structure RawMsg where
  text : String
  decEvt : Except String WSEventResponse
  decDtr : Except String WSDepthTableResponse
  decTbl : Except String WSTableResponse
  decErr : Except String WSErrorResponse
deriving DecidableEq

/-- The typed value `loadResponse` hands back (`interface{}` in Go). -/
inductive LoadedRsp where
  | evt (r : WSEventResponse)
  | dtr (r : WSDepthTableResponse)
  | tbl (r : WSTableResponse)
  | errRsp (r : WSErrorResponse)
  | pong (s : String)
deriving DecidableEq

/-- The `err` variable left by a decode attempt. -/
def exErr {α : Type} : Except String α → Option String
  | .ok _ => none
  | .error e => some e

/-- The tail of `loadResponse` (ws_base.go:355-359): the `"pong"` literal
check, then `return nil, err` where `err` is whatever the last decode attempt
(the `WSErrorResponse` one) left behind — `nil` when that decode succeeded. -/
def loadResponsePong (m : RawMsg) : Option LoadedRsp × Option String :=
  if m.text = "pong" then (some (.pong m.text), none)
  else (none, exErr m.decErr)

/-- The `WSErrorResponse` attempt of `loadResponse` (ws_base.go:349-353). -/
def loadResponseErr (m : RawMsg) : Option LoadedRsp × Option String :=
  match m.decErr with
  | .ok r => if r.Valid then (some (.errRsp r), none) else loadResponsePong m
  | .error _ => loadResponsePong m

/-- The generic `WSTableResponse` attempt of `loadResponse`
(ws_base.go:343-347). -/
def loadResponseTbl (m : RawMsg) : Option LoadedRsp × Option String :=
  match m.decTbl with
  | .ok r => if r.Valid then (some (.tbl r), none) else loadResponseErr m
  | .error _ => loadResponseErr m

/-- The `WSDepthTableResponse` attempt of `loadResponse`
(ws_base.go:337-341). -/
def loadResponseDtr (m : RawMsg) : Option LoadedRsp × Option String :=
  match m.decDtr with
  | .ok r => if r.Valid then (some (.dtr r), none) else loadResponseTbl m
  | .error _ => loadResponseTbl m

/-- Translation of `loadResponse` (ws_base.go:327-361): try
`WSEventResponse`, `WSDepthTableResponse`, `WSTableResponse`,
`WSErrorResponse` in that order, returning the first that decodes and is
valid, then the `"pong"` literal, then `(nil, err)`. -/
def loadResponse (m : RawMsg) : Option LoadedRsp × Option String :=
  match m.decEvt with
  | .ok r => if r.Valid then (some (.evt r), none) else loadResponseDtr m
  | .error _ => loadResponseDtr m

/-- One classifier attempt as the spec words it: the variant is produced
exactly when the decode succeeds and the validity predicate holds. -/
def tryVariant {α : Type} (d : Except String α) (valid : α → Bool) (inj : α → LoadedRsp) :
    Option LoadedRsp :=
  match d with
  | .ok r => if valid r then some (inj r) else none
  | .error _ => none

/-- The classifier as the amended claim words it: return the first variant,
in the order EventResponse, DepthTableResponse, TableResponse, ErrorResponse,
whose decode succeeds and whose validity predicate holds; failing that,
return the pong variant for the literal text `"pong"`; failing that, return
no variant together with the last underlying decode error — which is absent
when the last (ErrorResponse) decode structurally succeeded. -/
def classifySpec (m : RawMsg) : Option LoadedRsp × Option String :=
  let first :=
    (tryVariant m.decEvt WSEventResponse.Valid LoadedRsp.evt).orElse (fun _ =>
      (tryVariant m.decDtr WSDepthTableResponse.Valid LoadedRsp.dtr).orElse (fun _ =>
        (tryVariant m.decTbl WSTableResponse.Valid LoadedRsp.tbl).orElse (fun _ =>
          tryVariant m.decErr WSErrorResponse.Valid LoadedRsp.errRsp)))
  match first with
  | some v => (some v, none)
  | none =>
    if m.text = "pong" then (some (.pong m.text), none)
    else (none, exErr m.decErr)

/-- A message every decode accepts structurally but no validity predicate
accepts: Go's JSON unmarshal of `"null"` into any of the four structs
succeeds and leaves every field zero. -/
def c8msg : RawMsg :=
  ⟨"null", .ok ⟨"", "", ""⟩, .ok ⟨"", "", []⟩, .ok ⟨"", "", []⟩, .ok ⟨"", "", 0⟩⟩

/-- C1 example: the spec scenario's bids `[[100.0,"1"],[99.0,"2"]]`. -/
def c1bids : List Row := [(.vnum 100, .vstr "1", .vnil, .vnil), (.vnum 99, .vstr "2", .vnil, .vnil)]

/-- C1 example: the spec scenario's asks `[[101.0,"1"],[102.0,"2"]]`. -/
def c1asks : List Row := [(.vnum 101, .vstr "1", .vnil, .vnil), (.vnum 102, .vstr "2", .vnil, .vnil)]

def c2di : WSDepthItem := ⟨"Y", RbTree.empty .bidC, RbTree.empty .askC, "t0", 7⟩

def c2updGood : WsDepthUpdates := ⟨"Y", [], [], "t1", 0⟩

def c2updBad : WsDepthUpdates := ⟨"Y", [], [], "t1", 5⟩

def c3row100 : Row := (.vstr "100", .vstr "1", .vnil, .vnil)

def c3row0 : Row := (.vstr "100", .vstr "0", .vnil, .vnil)

def c3row101 : Row := (.vstr "101", .vstr "2", .vnil, .vnil)

def c3tree : RbTree := ⟨.askC, [((100 : ℚ), c3row100)]⟩

def c4rowBid : Row := (.vstr "99", .vstr "1", .vnil, .vnil)

def c4rowAsk : Row := (.vstr "101", .vstr "1", .vnil, .vnil)

def c4book : WSDepthItem :=
  ⟨"A", ⟨.bidC, [((99 : ℚ), c4rowBid)]⟩, ⟨.askC, [((101 : ℚ), c4rowAsk)]⟩, "t", 0⟩

def c4d : WSHotDepths := ⟨"spot/depth", [("A", c4book)]⟩

def c4u : WsDepthUpdates := ⟨"A", [], [], "t", 0⟩

def c4r : WSDepthTableResponse := ⟨"spot/depth", "noop", [c4u]⟩

def c5u : WsDepthUpdates := ⟨"A", [], [], "t", 9⟩

def c5r : WSDepthTableResponse := ⟨"spot/depth", "partial", [c5u]⟩

def c5d : WSHotDepths := NewWSHotDepths "spot/depth"

def c6uBad : WsDepthUpdates := ⟨"A", [], [], "t", 999⟩

def c6uGood : WsDepthUpdates :=
  ⟨"B", [(.vstr "101", .vstr "1", .vnil, .vnil)], [(.vstr "99", .vstr "1", .vnil, .vnil)], "t", 2008173286⟩

def c6r : WSDepthTableResponse := ⟨"spot/depth", "partial", [c6uBad, c6uGood]⟩

def c6d : WSHotDepths := NewWSHotDepths "spot/depth"

def c6bbook : WSDepthItem :=
  ⟨"A", ⟨.bidC, [((99 : ℚ), c4rowBid)]⟩, ⟨.askC, [((101 : ℚ), c4rowAsk)]⟩, "t", 2008173286⟩

def c6bd : WSHotDepths := ⟨"spot/depth", [("A", c6bbook)]⟩

def c6bu : WsDepthUpdates := ⟨"A", [], [], "t2", 7⟩

def c6br : WSDepthTableResponse := ⟨"spot/depth", "update", [c6bu]⟩

def c7di : WSDepthItem := ⟨"X", RbTree.empty .bidC, RbTree.empty .askC, "t0", 0⟩

def c7rowGood : Row := (.vstr "100", .vstr "1", .vnil, .vnil)

def c7rowBad : Row := (.vstr "abc", .vstr "1", .vnil, .vnil)

def c7upd : WsDepthUpdates := ⟨"X", [c7rowGood, c7rowBad], [], "t1", 0⟩

def c9u : WsDepthUpdates :=
  ⟨"C", [(.vstr "101", .vstr "1", .vnil, .vnil)], [(.vstr "99", .vstr "1", .vnil, .vnil)], "t1", 123456⟩

def c9rUpd : WSDepthTableResponse := ⟨"spot/depth", "update", [c9u]⟩

def c9rPart : WSDepthTableResponse := ⟨"spot/depth", "partial", [c9u]⟩

def c9d : WSHotDepths := NewWSHotDepths "spot/depth"

def c10u : WsDepthUpdates := ⟨"Z", [], [], "t", 0⟩

def c10r : WSDepthTableResponse := ⟨"spot/depth", "delete", [c10u]⟩

theorem append_colon_length_pos (x y : String) : 0 < (x ++ ":" ++ y).length := by
  rw [String.length_append, String.length_append]
  have h : (":" : String).length = 1 := rfl
  omega

theorem rowPS_length_pos (r : Row) : 0 < (rowPS r).length :=
  append_colon_length_pos (goValStr r.1) (goValStr r.2.1)

theorem bufAppend_empty (c : String) : bufAppend "" c = c := rfl

theorem bufAppend_pos (b c : String) (h : 0 < b.length) :
    bufAppend b c = b ++ ":" ++ c := by
  unfold bufAppend
  rw [if_pos h]

theorem joinColon_cons (c c2 : String) (cs : List String) :
    joinColon (c :: c2 :: cs) = c ++ ":" ++ joinColon (c2 :: cs) := rfl

theorem joinColon_length_pos (c : String) (cs : List String) (h : 0 < c.length) :
    0 < (joinColon (c :: cs)).length := by
  cases cs with
  | nil => exact h
  | cons c2 cs2 =>
    rw [joinColon_cons, String.length_append, String.length_append]
    omega

theorem joinColon_split (x y : String) (ds : List String) :
    joinColon ((x ++ ":" ++ y) :: ds) = x ++ ":" ++ joinColon (y :: ds) := by
  cases ds with
  | nil => rfl
  | cons d ds2 =>
    rw [joinColon_cons, joinColon_cons]
    simp [String.append_assoc]

theorem foldl_bufAppend_pos (cs : List String) :
    ∀ b : String, 0 < b.length → List.foldl bufAppend b cs = joinColon (b :: cs) := by
  induction cs with
  | nil => intro b h; rfl
  | cons c cs2 ih =>
    intro b h
    rw [List.foldl_cons, bufAppend_pos b c h]
    rw [ih (b ++ ":" ++ c) (by rw [String.length_append, String.length_append]; omega)]
    rw [joinColon_split, joinColon_cons]

theorem foldl_bufAppend_empty (cs : List String) (h : ∀ c ∈ cs, 0 < c.length) :
    List.foldl bufAppend "" cs = joinColon cs := by
  cases cs with
  | nil => rfl
  | cons c cs2 =>
    rw [List.foldl_cons, bufAppend_empty]
    exact foldl_bufAppend_pos cs2 c (h c (by simp))

theorem joinColon_glue (ds : List String) (cs : List String) (c : String) :
    joinColon ((c :: cs) ++ ds) = joinColon (joinColon (c :: cs) :: ds) := by
  induction cs generalizing c with
  | nil => rfl
  | cons c2 cs2 ih =>
    show c ++ ":" ++ joinColon ((c2 :: cs2) ++ ds)
        = joinColon ((c ++ ":" ++ joinColon (c2 :: cs2)) :: ds)
    rw [joinColon_split, ih c2]

theorem foldl_bufAppend_two (bc ac : List String)
    (hb : ∀ c ∈ bc, 0 < c.length) (ha : ∀ c ∈ ac, 0 < c.length) :
    List.foldl bufAppend (List.foldl bufAppend "" bc) ac = joinColon (bc ++ ac) := by
  cases bc with
  | nil =>
    rw [List.nil_append]
    exact foldl_bufAppend_empty ac ha
  | cons c cs =>
    rw [foldl_bufAppend_empty (c :: cs) hb]
    rw [foldl_bufAppend_pos ac (joinColon (c :: cs)) (joinColon_length_pos c cs (hb c (by simp)))]
    exact (joinColon_glue ac cs c).symm

/-- The standard CRC-32 check value: the IEEE CRC-32 of `"123456789"` is
`0xCBF43926`, pinning the embedded `crc32` to the algorithm Go's
`crc32.ChecksumIEEE` implements. -/
theorem crc32_ieee_check_value : crc32 (strBytes "123456789") = 0xCBF43926 := by decide

theorem calCrc32_buf_eq_preHash (askDepths bidDepths : List Row) :
    (calCrc32 askDepths bidDepths).1 = preHash bidDepths askDepths := by
  show (if (askDepths.take 25).length = (bidDepths.take 25).length then
          ((bidDepths.take 25).zip (askDepths.take 25)).foldl
            (fun b p => bufAppend b (rowPS p.1 ++ ":" ++ rowPS p.2)) ""
        else
          (askDepths.take 25).foldl (fun b r => bufAppend b (rowPS r))
            ((bidDepths.take 25).foldl (fun b r => bufAppend b (rowPS r)) ""))
      = preHash bidDepths askDepths
  unfold preHash
  by_cases h : (askDepths.take 25).length = (bidDepths.take 25).length
  · rw [if_pos h, if_pos h.symm]
    rw [← List.foldl_map (fun p : Row × Row => rowPS p.1 ++ ":" ++ rowPS p.2) bufAppend
          ((bidDepths.take 25).zip (askDepths.take 25)) ""]
    exact foldl_bufAppend_empty _ (by
      intro c hc
      obtain ⟨p, hp, rfl⟩ := List.mem_map.mp hc
      exact append_colon_length_pos _ _)
  · rw [if_neg h, if_neg (fun hh => h hh.symm)]
    rw [← List.foldl_map rowPS bufAppend (bidDepths.take 25) ""]
    rw [← List.foldl_map rowPS bufAppend (askDepths.take 25)
          (List.foldl bufAppend "" ((bidDepths.take 25).map rowPS))]
    exact foldl_bufAppend_two _ _
      (by intro c hc; obtain ⟨r, hr, rfl⟩ := List.mem_map.mp hc; exact rowPS_length_pos r)
      (by intro c hc; obtain ⟨r, hr, rfl⟩ := List.mem_map.mp hc; exact rowPS_length_pos r)

/-- C1: `calCrc32` truncates each side to at most 25 entries and builds the
pre-hash string exactly as the specification describes (interleaved
`bid:bid:ask:ask` chunks for equal truncated lengths, all bid pairs then all
ask pairs otherwise, joined by `:`), and returns the IEEE CRC-32 of that
string reinterpreted as a signed 32-bit integer; on the spec's example book
(bids `[[100.0,"1"],[99.0,"2"]]`, asks `[[101.0,"1"],[102.0,"2"]]`) the
pre-hash string is `"100:1:101:1:99:2:102:2"`. -/
theorem C1_calCrc32_follows_spec :
    (∀ askDepths bidDepths : List Row,
       calCrc32 askDepths bidDepths
         = (preHash bidDepths askDepths,
            toInt32 (crc32 (strBytes (preHash bidDepths askDepths)))))
    ∧ (calCrc32 c1asks c1bids).1 = "100:1:101:1:99:2:102:2" := by
  constructor
  · intro askDepths bidDepths
    have hbuf := calCrc32_buf_eq_preHash askDepths bidDepths
    have h2 : (calCrc32 askDepths bidDepths).2
        = toInt32 (crc32 (strBytes (preHash bidDepths askDepths))) := by
      rw [← hbuf]; exact rfl
    exact Prod.ext hbuf h2
  · decide

theorem Cmp.apply_eq_zero (c : Cmp) (a b : ℚ) : c.apply a b = 0 ↔ a = b := by
  cases c <;> simp only [Cmp.apply] <;> split_ifs with h1 h2
  · exact ⟨fun h => absurd h (by decide), fun h => absurd h (ne_of_lt h1)⟩
  · exact ⟨fun h => absurd h (by decide), fun h => absurd h (ne_of_gt h2)⟩
  · exact ⟨fun _ => le_antisymm (not_lt.mp h2) (not_lt.mp h1), fun _ => rfl⟩
  · exact ⟨fun h => absurd h (by decide), fun h => absurd h (ne_of_lt h1)⟩
  · exact ⟨fun h => absurd h (by decide), fun h => absurd h (ne_of_gt h2)⟩
  · exact ⟨fun _ => le_antisymm (not_lt.mp h2) (not_lt.mp h1), fun _ => rfl⟩

theorem getList_putList_self (c : Cmp) (k : ℚ) (v : Row) (l : List (ℚ × Row)) :
    getList c k (putList c k v l) = some v := by
  have hself : c.apply k k = 0 := (Cmp.apply_eq_zero c k k).mpr rfl
  induction l with
  | nil => simp [putList, getList, hself]
  | cons e rest ih =>
    by_cases h1 : c.apply k e.1 < 0
    · simp [putList, h1, getList, hself]
    · by_cases h2 : c.apply k e.1 = 0
      · simp [putList, h1, h2, getList, hself]
      · simp [putList, h1, h2, getList, ih]

theorem getList_putList_other (c : Cmp) (k q : ℚ) (v : Row) (l : List (ℚ × Row))
    (hq : q ≠ k) : getList c q (putList c k v l) = getList c q l := by
  have hqk : ¬ c.apply q k = 0 := fun h => hq ((Cmp.apply_eq_zero c q k).mp h)
  induction l with
  | nil => simp [putList, getList, hqk]
  | cons e rest ih =>
    by_cases h1 : c.apply k e.1 < 0
    · simp [putList, h1, getList, hqk]
    · by_cases h2 : c.apply k e.1 = 0
      · have he : k = e.1 := (Cmp.apply_eq_zero c k e.1).mp h2
        have hqe : ¬ c.apply q e.1 = 0 := by rw [← he]; exact hqk
        simp [putList, h1, h2, getList, hqk, hqe]
      · simp [putList, h1, h2, getList, ih]

theorem getList_eq_none_of_not_mem (c : Cmp) (k : ℚ) (l : List (ℚ × Row))
    (h : ∀ e ∈ l, e.1 ≠ k) : getList c k l = none := by
  induction l with
  | nil => rfl
  | cons e rest ih =>
    have he : ¬ c.apply k e.1 = 0 :=
      fun hz => (h e (by simp)) ((Cmp.apply_eq_zero c k e.1).mp hz).symm
    simp only [getList, if_neg he]
    exact ih (fun e2 h2 => h e2 (by simp [h2]))

theorem getList_removeList_self (c : Cmp) (k : ℚ) (l : List (ℚ × Row))
    (hnd : (l.map (fun e => e.1)).Nodup) :
    getList c k (removeList c k l) = none := by
  induction l with
  | nil => rfl
  | cons e rest ih =>
    have hnd2 : (e.1 :: rest.map (fun e => e.1)).Nodup := by simpa using hnd
    obtain ⟨hmem, hrest⟩ := List.nodup_cons.mp hnd2
    by_cases h : c.apply k e.1 = 0
    · have hk : k = e.1 := (Cmp.apply_eq_zero c k e.1).mp h
      simp only [removeList, if_pos h]
      refine getList_eq_none_of_not_mem c k rest (fun e2 h2 hk2 => hmem ?_)
      rw [← hk, ← hk2]
      exact List.mem_map.mpr ⟨e2, h2, rfl⟩
    · simp only [removeList, if_neg h]
      simp only [getList, if_neg h]
      exact ih hrest

theorem getList_removeList_other (c : Cmp) (k q : ℚ) (l : List (ℚ × Row))
    (hq : q ≠ k) : getList c q (removeList c k l) = getList c q l := by
  induction l with
  | nil => rfl
  | cons e rest ih =>
    by_cases h : c.apply k e.1 = 0
    · have hk : k = e.1 := (Cmp.apply_eq_zero c k e.1).mp h
      have hqe : ¬ c.apply q e.1 = 0 := fun hz =>
        hq (((Cmp.apply_eq_zero c q e.1).mp hz).trans hk.symm)
      simp [removeList, h, getList, hqe]
    · simp only [removeList, if_neg h, getList]
      by_cases hqe : c.apply q e.1 = 0
      · rw [if_pos hqe, if_pos hqe]
      · rw [if_neg hqe, if_neg hqe]
        exact ih

theorem removeList_absent (c : Cmp) (k : ℚ) (l : List (ℚ × Row))
    (h : getList c k l = none) : removeList c k l = l := by
  induction l with
  | nil => rfl
  | cons e rest ih =>
    by_cases hz : c.apply k e.1 = 0
    · simp [getList, hz] at h
    · simp only [getList, if_neg hz] at h
      simp only [removeList, if_neg hz]
      rw [ih h]

/-- C3: each delta level applied by `mergeDepths` removes the price key when
the parsed size is 0 (a no-op when the key is absent) and upserts the level
at the price key otherwise, leaving every other price key untouched. -/
theorem C3_mergeDepths_delta (t : RbTree) (row : Row) (ps ns : String) (p : ℚ)
    (hps : row.1 = .vstr ps) (hns : row.2.1 = .vstr ns)
    (hp : parseFloat ps = some p)
    (hnd : (t.entries.map (fun e => e.1)).Nodup) :
    (StringToInt64 ns = 0 →
       mergeStep t row = (t.remove p, .ok)
       ∧ (t.remove p).get p = none
       ∧ (∀ q : ℚ, q ≠ p → (t.remove p).get q = t.get q)
       ∧ (t.get p = none → t.remove p = t))
    ∧ (StringToInt64 ns ≠ 0 →
       mergeStep t row = (t.put p row, .ok)
       ∧ (t.put p row).get p = some row
       ∧ (∀ q : ℚ, q ≠ p → (t.put p row).get q = t.get q)) := by
  constructor
  · intro hz
    refine ⟨by simp [mergeStep, hps, hp, hns, hz], ?_, ?_, ?_⟩
    · exact getList_removeList_self t.cmp p t.entries hnd
    · intro q hq; exact getList_removeList_other t.cmp p q t.entries hq
    · intro habs
      show RbTree.mk t.cmp (removeList t.cmp p t.entries) = t
      rw [removeList_absent t.cmp p t.entries habs]
  · intro hz
    refine ⟨by simp [mergeStep, hps, hp, hns, hz], ?_, ?_⟩
    · exact getList_putList_self t.cmp p row t.entries
    · intro q hq; exact getList_putList_other t.cmp p q row t.entries hq

/-- Witness for C3: on a one-entry ask side at price 100, a size-0 delta at
price 100 removes the key, and a non-zero delta at price 101 inserts it. -/
theorem C3_mergeDepths_delta_witness :
    (parseFloat "100" = some 100 ∧ StringToInt64 "0" = 0
      ∧ mergeStep c3tree c3row0 = (c3tree.remove 100, .ok)
      ∧ (c3tree.remove 100).get 100 = none)
    ∧ (parseFloat "101" = some 101 ∧ StringToInt64 "2" ≠ 0
      ∧ mergeStep c3tree c3row101 = (c3tree.put 101 c3row101, .ok)
      ∧ (c3tree.put 101 c3row101).get 101 = some c3row101) := by
  constructor
  · have h := (C3_mergeDepths_delta c3tree c3row0 "100" "0" 100 rfl rfl (by decide)
      (by decide)).1 (by decide)
    exact ⟨by decide, by decide, h.1, h.2.1⟩
  · have h := (C3_mergeDepths_delta c3tree c3row101 "101" "2" 101 rfl rfl (by decide)
      (by decide)).2 (by decide)
    exact ⟨by decide, by decide, h.1, h.2.1⟩

/-- C7 counterexample: a message whose second ask level has the unparsable
price `"abc"` makes the merge fail, yet the ask side is NOT left as it was —
the first level was already applied. -/
theorem C7_counterexample :
    (c7di.update c7upd).2.isFail = true ∧ (c7di.update c7upd).1.Asks ≠ c7di.Asks := by
  decide

/-- C7 amended: a price-parse failure aborts the merge with an error, but
only the deltas from the failing level on are unapplied: the tree (and hence
the book side) keeps every delta already processed before the failure. -/
theorem C7_parse_failure_partial (t : RbTree) (pre : List Row) (row : Row) (rest : List Row)
    (ps : String) (hok : (mergeDepths t pre).2 = .ok)
    (hps : row.1 = .vstr ps) (hbad : parseFloat ps = none) :
    mergeDepths t (pre ++ row :: rest) = ((mergeDepths t pre).1, .fail (badPriceMsg ps)) := by
  induction pre generalizing t with
  | nil =>
    simp only [List.nil_append]
    simp [mergeDepths, mergeStep, hps, hbad]
  | cons r pre2 ih =>
    rcases hsm : mergeStep t r with ⟨t2, o⟩
    cases o with
    | ok =>
      have hok2 : (mergeDepths t2 pre2).2 = .ok := by
        simpa [mergeDepths, hsm] using hok
      have goal2 := ih t2 hok2
      simp only [List.cons_append, mergeDepths, hsm]
      simpa [mergeDepths, hsm] using goal2
    | fail m =>
      exfalso
      simp [mergeDepths, hsm] at hok
    | gopanic m =>
      exfalso
      simp [mergeDepths, hsm] at hok

/-- Witness for C7 amended: a good level at price 100 followed by the bad
price `"abc"`: the merge fails and the tree equals the one-level merge
result. -/
theorem C7_parse_failure_partial_witness :
    mergeDepths (RbTree.empty .askC) [c7rowGood, c7rowBad]
      = ((mergeDepths (RbTree.empty .askC) [c7rowGood]).1, .fail (badPriceMsg "abc")) :=
  C7_parse_failure_partial (RbTree.empty .askC) [c7rowGood] c7rowBad [] "abc"
    (by decide) (by decide) (by decide)

/-- C2: when both merges succeed, `update` commits the incoming checksum and
timestamp exactly when the checksum recomputed over the post-merge top-25 of
each side equals the carried one; on a mismatch it returns an error and the
book keeps its previously committed checksum and timestamp. -/
theorem C2_update_checksum_commit (di : WSDepthItem) (newDI : WsDepthUpdates) (ta tb : RbTree)
    (ha : mergeDepths di.Asks newDI.Asks = (ta, .ok))
    (hb : mergeDepths di.Bids newDI.Bids = (tb, .ok)) :
    ((calCrc32 (first25Updates ta) (first25Updates tb)).2 ≠ newDI.Checksum →
       (di.update newDI).1.Checksum = di.Checksum
       ∧ (di.update newDI).1.Timestamp = di.Timestamp
       ∧ (di.update newDI).2.isFail = true)
    ∧ ((calCrc32 (first25Updates ta) (first25Updates tb)).2 = newDI.Checksum →
       (di.update newDI).1.Checksum = newDI.Checksum
       ∧ (di.update newDI).1.Timestamp = newDI.Timestamp
       ∧ (di.update newDI).2 = .ok) := by
  constructor
  · intro hne
    simp [WSDepthItem.update, ha, hb, hne, Outcome.isFail]
  · intro heq
    simp [WSDepthItem.update, ha, hb, heq]

/-- Witness for C2 on an empty book: the empty pre-hash string has checksum
0, so carried checksum 5 is rejected without touching checksum 7 and
timestamp `"t0"`, while carried checksum 0 is committed. -/
theorem C2_update_checksum_commit_witness :
    (mergeDepths c2di.Asks c2updBad.Asks = (RbTree.empty .askC, .ok)
      ∧ mergeDepths c2di.Bids c2updBad.Bids = (RbTree.empty .bidC, .ok)
      ∧ (calCrc32 (first25Updates (RbTree.empty .askC))
          (first25Updates (RbTree.empty .bidC))).2 ≠ c2updBad.Checksum
      ∧ (c2di.update c2updBad).1.Checksum = c2di.Checksum
      ∧ (c2di.update c2updBad).1.Timestamp = c2di.Timestamp
      ∧ (c2di.update c2updBad).2.isFail = true)
    ∧ ((calCrc32 (first25Updates (RbTree.empty .askC))
          (first25Updates (RbTree.empty .bidC))).2 = c2updGood.Checksum
      ∧ (c2di.update c2updGood).1.Checksum = c2updGood.Checksum
      ∧ (c2di.update c2updGood).1.Timestamp = c2updGood.Timestamp
      ∧ (c2di.update c2updGood).2 = .ok) := by
  constructor
  · have h := (C2_update_checksum_commit c2di c2updBad (RbTree.empty .askC) (RbTree.empty .bidC)
      (by decide) (by decide)).1 (by decide)
    exact ⟨by decide, by decide, by decide, h.1, h.2.1, h.2.2⟩
  · have h := (C2_update_checksum_commit c2di c2updGood (RbTree.empty .askC) (RbTree.empty .bidC)
      (by decide) (by decide)).2 (by decide)
    exact ⟨by decide, h.1, h.2.1, h.2.2⟩

theorem finalLoop_ok_sound (data : List WsDepthUpdates) (d : WSHotDepths)
    (h : finalLoop d data = .ok) :
    ∀ u ∈ data, ∃ item a1 b1, mapGet d.DepthMap u.InstrumentId = some item
      ∧ item.Asks.left = some a1 ∧ item.Bids.left = some b1 ∧ b1.1 < a1.1 := by
  induction data with
  | nil => intro u hu; cases hu
  | cons u0 rest ih =>
    intro u hu
    rcases hm : mapGet d.DepthMap u0.InstrumentId with _ | item
    · simp [finalLoop, hm] at h
    · rcases hA : item.Asks.left with _ | a1
      · simp [finalLoop, hm, hA] at h
      · rcases hB : item.Bids.left with _ | b1
        · simp [finalLoop, hm, hA, hB] at h
        · simp only [finalLoop, hm, hA, hB] at h
          by_cases hba : b1.1 ≥ a1.1
          · rw [if_pos hba] at h
            exact absurd h (by simp)
          · rw [if_neg hba] at h
            rcases List.mem_cons.mp hu with rfl | hmem
            · exact ⟨item, a1, b1, hm, hA, hB, not_le.mp hba⟩
            · exact ih h u hmem

theorem finalLoop_inversion (data : List WsDepthUpdates) (d : WSHotDepths)
    (hall : ∀ u ∈ data, ∃ item a1 b1, mapGet d.DepthMap u.InstrumentId = some item
      ∧ item.Asks.left = some a1 ∧ item.Bids.left = some b1)
    (hbad : ∃ u ∈ data, ∃ item a1 b1, mapGet d.DepthMap u.InstrumentId = some item
      ∧ item.Asks.left = some a1 ∧ item.Bids.left = some b1 ∧ a1.1 ≤ b1.1) :
    (finalLoop d data).isFail = true := by
  induction data with
  | nil => obtain ⟨u, hu, _⟩ := hbad; cases hu
  | cons u0 rest ih =>
    obtain ⟨item, a1, b1, hm, hA, hB⟩ := hall u0 (by simp)
    simp only [finalLoop, hm, hA, hB]
    by_cases hba : b1.1 ≥ a1.1
    · rw [if_pos hba]; rfl
    · rw [if_neg hba]
      apply ih
      · intro u hu; exact hall u (by simp [hu])
      · obtain ⟨u, hu, item2, a2, b2, hm2, hA2, hB2, hle⟩ := hbad
        rcases List.mem_cons.mp hu with rfl | hmem
        · rw [hm] at hm2; injection hm2 with h2; subst h2
          rw [hA] at hA2; injection hA2 with h3; subst h3
          rw [hB] at hB2; injection hB2 with h4; subst h4
          exact absurd hle hba
        · exact ⟨u, hmem, item2, a2, b2, hm2, hA2, hB2, hle⟩

theorem load_eq_of_switch_ok (d : WSHotDepths) (r : WSDepthTableResponse) (d2 : WSHotDepths)
    (h1 : d.Table = r.Table) (h2 : r.Valid = true) (hsw : depthSwitch d r = (d2, .ok)) :
    d.loadWSDepthTableResponse r = (d2, finalLoop d2 r.Data) := by
  unfold WSHotDepths.loadWSDepthTableResponse
  rw [if_neg (by simp [h1]), if_neg (by simp [h2]), hsw]

theorem load_ok_inv (d : WSHotDepths) (r : WSDepthTableResponse)
    (hok : (d.loadWSDepthTableResponse r).2 = .ok) :
    ∃ d2, depthSwitch d r = (d2, .ok)
      ∧ (d.loadWSDepthTableResponse r).1 = d2 ∧ finalLoop d2 r.Data = .ok := by
  unfold WSHotDepths.loadWSDepthTableResponse at hok ⊢
  by_cases h1 : d.Table ≠ r.Table
  · rw [if_pos h1] at hok
    exact absurd hok (by simp)
  · rw [if_neg h1] at hok ⊢
    by_cases h2 : (!r.Valid) = true
    · rw [if_pos h2] at hok
      exact absurd hok (by simp)
    · rw [if_neg h2] at hok ⊢
      rcases hsw : depthSwitch d r with ⟨d2, o⟩
      rw [hsw] at hok
      cases o with
      | ok => exact ⟨d2, rfl, rfl, hok⟩
      | fail m => exact absurd hok (by simp)
      | gopanic m => exact absurd hok (by simp)

/-- C4: a run of `loadWSDepthTableResponse` that returns no error leaves
every instrument book referenced by the message with a non-empty ask side,
a non-empty bid side, and best bid strictly below best ask; and when the
action switch succeeded but some referenced book (all being present with
non-empty sides) has best bid at or above best ask, the final check returns
the data-integrity error while the state stays exactly the post-switch
state. -/
theorem C4_best_bid_below_ask (d : WSHotDepths) (r : WSDepthTableResponse) :
    ((d.loadWSDepthTableResponse r).2 = .ok →
       ∀ u ∈ r.Data, ∃ item a1 b1,
         mapGet (d.loadWSDepthTableResponse r).1.DepthMap u.InstrumentId = some item
         ∧ item.Asks.left = some a1 ∧ item.Bids.left = some b1 ∧ b1.1 < a1.1)
    ∧ (∀ d2 : WSHotDepths, d.Table = r.Table → r.Valid = true →
       depthSwitch d r = (d2, .ok) →
       d.loadWSDepthTableResponse r = (d2, finalLoop d2 r.Data)
       ∧ ((∀ u ∈ r.Data, ∃ item a1 b1, mapGet d2.DepthMap u.InstrumentId = some item
             ∧ item.Asks.left = some a1 ∧ item.Bids.left = some b1) →
          (∃ u ∈ r.Data, ∃ item a1 b1, mapGet d2.DepthMap u.InstrumentId = some item
             ∧ item.Asks.left = some a1 ∧ item.Bids.left = some b1 ∧ a1.1 ≤ b1.1) →
          (finalLoop d2 r.Data).isFail = true)) := by
  constructor
  · intro hok u hu
    obtain ⟨d2, hsw, hst, hfl⟩ := load_ok_inv d r hok
    rw [hst]
    exact finalLoop_ok_sound r.Data d2 hfl u hu
  · intro d2 hT hV hsw
    refine ⟨load_eq_of_switch_ok d r d2 hT hV hsw, ?_⟩
    intro hall hbad
    exact finalLoop_inversion r.Data d2 hall hbad

/-- Witness for C4: a registry holding instrument `A` with best bid 99 and
best ask 101, fed a valid depth message with a fall-through action. -/
theorem C4_best_bid_below_ask_witness :
    (c4d.Table = c4r.Table ∧ c4r.Valid = true ∧ depthSwitch c4d c4r = (c4d, .ok)
      ∧ (c4d.loadWSDepthTableResponse c4r).2 = .ok)
    ∧ c4d.loadWSDepthTableResponse c4r = (c4d, finalLoop c4d c4r.Data)
    ∧ (∀ u ∈ c4r.Data, ∃ item a1 b1,
        mapGet (c4d.loadWSDepthTableResponse c4r).1.DepthMap u.InstrumentId = some item
        ∧ item.Asks.left = some a1 ∧ item.Bids.left = some b1 ∧ b1.1 < a1.1) := by
  refine ⟨⟨rfl, by decide, by decide, by decide⟩, ?_, ?_⟩
  · exact ((C4_best_bid_below_ask c4d c4r).2 c4d rfl (by decide) (by decide)).1
  · exact (C4_best_bid_below_ask c4d c4r).1 (by decide)

theorem mapGet_mapPut_self (m : List (String × WSDepthItem)) (k : String) (v : WSDepthItem) :
    mapGet (mapPut m k v) k = some v := by
  induction m with
  | nil => simp [mapPut, mapGet]
  | cons p rest ih =>
    by_cases h : p.1 = k
    · simp [mapPut, h, mapGet]
    · simp [mapPut, h, mapGet, ih]

theorem mapGet_mapPut_other (m : List (String × WSDepthItem)) (k q : String) (v : WSDepthItem)
    (hq : q ≠ k) : mapGet (mapPut m k v) q = mapGet m q := by
  have hkq : ¬ k = q := fun h => hq h.symm
  induction m with
  | nil => simp [mapPut, mapGet, hkq]
  | cons p rest ih =>
    by_cases h : p.1 = k
    · have hpq : ¬ p.1 = q := by rw [h]; exact hkq
      simp [mapPut, h, mapGet, hkq, hpq]
    · by_cases hpq : p.1 = q
      · simp [mapPut, h, mapGet, hpq, hq]
      · simp [mapPut, h, mapGet, hpq, ih]

theorem snapshotLoop_mismatch (pre : List WsDepthUpdates) :
    ∀ (d : WSHotDepths) (u : WsDepthUpdates) (post : List WsDepthUpdates),
    mapGet d.DepthMap u.InstrumentId = none →
    (calCrc32 u.Asks u.Bids).2 ≠ u.Checksum →
    (∀ v ∈ pre, v.InstrumentId ≠ u.InstrumentId ∧ (newDepthItem v).2 = .ok) →
    (snapshotLoop d (pre ++ u :: post)).2.isFail = true
    ∧ mapGet (snapshotLoop d (pre ++ u :: post)).1.DepthMap u.InstrumentId = none := by
  induction pre with
  | nil =>
    intro d u post habs hmis hpre
    simp only [List.nil_append, snapshotLoop]
    rw [if_neg hmis]
    exact ⟨rfl, habs⟩
  | cons v pre2 ih =>
    intro d u post habs hmis hpre
    obtain ⟨hne, hok⟩ := hpre v (by simp)
    simp only [List.cons_append, snapshotLoop]
    by_cases hcrc : (calCrc32 v.Asks v.Bids).2 = v.Checksum
    · rw [if_pos hcrc]
      rcases hni : newDepthItem v with ⟨ni, o⟩
      rw [hni] at hok
      have ho : o = .ok := hok
      subst ho
      refine ih { d with DepthMap := mapPut d.DepthMap v.InstrumentId ni } u post ?_ hmis
        (fun v2 hv2 => hpre v2 (by simp [hv2]))
      show mapGet (mapPut d.DepthMap v.InstrumentId ni) u.InstrumentId = none
      rw [mapGet_mapPut_other d.DepthMap v.InstrumentId u.InstrumentId ni
        (fun h => hne h.symm)]
      exact habs
    · rw [if_neg hcrc]
      exact ⟨rfl, habs⟩

/-- C5: a `"partial"` snapshot entry whose checksum over its supplied levels
differs from the carried checksum makes `loadWSDepthTableResponse` return an
error, and (the instrument being absent beforehand and not repeated earlier
in the message) no book for it is installed: the id stays absent from
`DepthMap`. -/
theorem C5_snapshot_mismatch_rejected (d : WSHotDepths) (r : WSDepthTableResponse)
    (pre post : List WsDepthUpdates) (u : WsDepthUpdates)
    (hA : r.Action = "partial") (hT : d.Table = r.Table) (hV : r.Valid = true)
    (hdata : r.Data = pre ++ u :: post)
    (habs : mapGet d.DepthMap u.InstrumentId = none)
    (hmis : (calCrc32 u.Asks u.Bids).2 ≠ u.Checksum)
    (hpre : ∀ v ∈ pre, v.InstrumentId ≠ u.InstrumentId ∧ (newDepthItem v).2 = .ok) :
    (d.loadWSDepthTableResponse r).2.isFail = true
    ∧ mapGet (d.loadWSDepthTableResponse r).1.DepthMap u.InstrumentId = none := by
  have hsl := snapshotLoop_mismatch pre { d with Table := r.Table } u post habs hmis hpre
  have hswitch : depthSwitch d r = snapshotLoop { d with Table := r.Table } r.Data := by
    unfold depthSwitch
    rw [if_pos hA]
  rw [hdata] at hswitch
  unfold WSHotDepths.loadWSDepthTableResponse
  rw [if_neg (by simp [hT]), if_neg (by simp [hV]), hswitch]
  rcases hsl2 : snapshotLoop { d with Table := r.Table } (pre ++ u :: post) with ⟨d2, o⟩
  rw [hsl2] at hsl
  cases o with
  | ok => simp [Outcome.isFail] at hsl
  | fail m => exact ⟨rfl, hsl.2⟩
  | gopanic m => simp [Outcome.isFail] at hsl

/-- Witness for C5: a fresh registry fed a one-entry snapshot with checksum
9 where the true checksum of the empty sides is 0. -/
theorem C5_snapshot_mismatch_rejected_witness :
    ((calCrc32 c5u.Asks c5u.Bids).2 ≠ c5u.Checksum
      ∧ mapGet c5d.DepthMap c5u.InstrumentId = none)
    ∧ (c5d.loadWSDepthTableResponse c5r).2.isFail = true
    ∧ mapGet (c5d.loadWSDepthTableResponse c5r).1.DepthMap c5u.InstrumentId = none := by
  refine ⟨⟨by decide, by decide⟩, ?_⟩
  exact C5_snapshot_mismatch_rejected c5d c5r [] [] c5u rfl rfl (by decide) rfl (by decide)
    (by decide) (by intro v hv; cases hv)

/-- C6 counterexample: a snapshot message carrying a bad entry for `A`
followed by a correct entry for `B` aborts at `A`: the whole load fails and
`B` — whose checksum is valid — is never installed, refuting per-instrument
isolation. -/
theorem C6_counterexample :
    (calCrc32 c6uGood.Asks c6uGood.Bids).2 = c6uGood.Checksum
    ∧ (c6d.loadWSDepthTableResponse c6r).2.isFail = true
    ∧ mapGet (c6d.loadWSDepthTableResponse c6r).1.DepthMap "B" = none := by
  decide

theorem updateLoop_append (pre : List WsDepthUpdates) :
    ∀ (d : WSHotDepths) (L : List WsDepthUpdates), (updateLoop d pre).2 = .ok →
    updateLoop d (pre ++ L) = updateLoop (updateLoop d pre).1 L := by
  induction pre with
  | nil => intro d L _; rfl
  | cons u0 pre2 ih =>
    intro d L hok
    rcases hm : mapGet d.DepthMap u0.InstrumentId with _ | oldDI
    · rcases hni : newDepthItem u0 with ⟨ni, o⟩
      cases o with
      | ok =>
        simp only [List.cons_append, updateLoop, hm, hni] at hok ⊢
        exact ih _ L hok
      | fail m => simp [updateLoop, hm, hni] at hok
      | gopanic m => simp [updateLoop, hm, hni] at hok
    · rcases hup : oldDI.update u0 with ⟨di2, o⟩
      cases o with
      | ok =>
        simp only [List.cons_append, updateLoop, hm, hup] at hok ⊢
        exact ih _ L hok
      | fail m => simp [updateLoop, hm, hup] at hok
      | gopanic m => simp [updateLoop, hm, hup] at hok

/-- C6 amended: a per-instrument failure does not isolate that instrument.
A checksum mismatch in the `"partial"` arm, or a failed merge in the
`"update"` arm, aborts the message at the failing entry: the error is
returned, entries before the failing one remain applied (the update arm even
keeps the failed entry's pointer-mutated book), and every entry after it is
left unprocessed.  A best-bid/best-ask invariant violation, by contrast, is
detected only by the final check, which runs after every entry of the
message has already been applied: the post-switch state is final and the
check returns the error without undoing or skipping any application. -/
theorem C6_failure_scope (d : WSHotDepths) (r : WSDepthTableResponse)
    (pre post : List WsDepthUpdates) (u : WsDepthUpdates)
    (hT : d.Table = r.Table) (hV : r.Valid = true)
    (hdata : r.Data = pre ++ u :: post) :
    (r.Action = "partial" →
      (∀ v ∈ pre, (calCrc32 v.Asks v.Bids).2 = v.Checksum ∧ (newDepthItem v).2 = .ok) →
      (calCrc32 u.Asks u.Bids).2 ≠ u.Checksum →
      d.loadWSDepthTableResponse r
        = ((snapshotLoop { d with Table := r.Table } pre).1,
           .fail (chkErrMsg (calCrc32 u.Asks u.Bids).1)))
    ∧ (∀ (oldDI di2 : WSDepthItem) (e : String),
      r.Action = "update" →
      (updateLoop d pre).2 = .ok →
      mapGet (updateLoop d pre).1.DepthMap u.InstrumentId = some oldDI →
      oldDI.update u = (di2, .fail e) →
      d.loadWSDepthTableResponse r
        = ({ (updateLoop d pre).1 with
             DepthMap := mapPut (updateLoop d pre).1.DepthMap u.InstrumentId di2 }, .fail e))
    ∧ (∀ d2 : WSHotDepths, depthSwitch d r = (d2, .ok) →
      d.loadWSDepthTableResponse r = (d2, finalLoop d2 r.Data)
      ∧ ((∀ v ∈ r.Data, ∃ item a1 b1, mapGet d2.DepthMap v.InstrumentId = some item
            ∧ item.Asks.left = some a1 ∧ item.Bids.left = some b1) →
         (∃ v ∈ r.Data, ∃ item a1 b1, mapGet d2.DepthMap v.InstrumentId = some item
            ∧ item.Asks.left = some a1 ∧ item.Bids.left = some b1 ∧ a1.1 ≤ b1.1) →
         (finalLoop d2 r.Data).isFail = true)) := by
  refine ⟨?_, ?_, ?_⟩
  · intro hA hpre hmis
    have key : ∀ (pre2 : List WsDepthUpdates) (d0 : WSHotDepths),
        (∀ v ∈ pre2, (calCrc32 v.Asks v.Bids).2 = v.Checksum ∧ (newDepthItem v).2 = .ok) →
        snapshotLoop d0 (pre2 ++ u :: post)
          = ((snapshotLoop d0 pre2).1, .fail (chkErrMsg (calCrc32 u.Asks u.Bids).1)) := by
      intro pre2
      induction pre2 with
      | nil =>
        intro d0 _
        simp only [List.nil_append, snapshotLoop]
        rw [if_neg hmis]
      | cons v pre3 ih =>
        intro d0 hp
        obtain ⟨hcrc, hok⟩ := hp v (by simp)
        simp only [List.cons_append, snapshotLoop]
        rw [if_pos hcrc, if_pos hcrc]
        rcases hni : newDepthItem v with ⟨ni, o⟩
        rw [hni] at hok
        have ho : o = .ok := hok
        subst ho
        exact ih _ (fun v2 hv2 => hp v2 (by simp [hv2]))
    have hswitch : depthSwitch d r = snapshotLoop { d with Table := r.Table } r.Data := by
      unfold depthSwitch
      rw [if_pos hA]
    unfold WSHotDepths.loadWSDepthTableResponse
    rw [if_neg (by simp [hT]), if_neg (by simp [hV]), hswitch, hdata,
      key pre { d with Table := r.Table } hpre]
  · intro oldDI di2 e hA hpreok holdDI hfail
    have happ := updateLoop_append pre d (u :: post) hpreok
    have hstep : updateLoop (updateLoop d pre).1 (u :: post)
        = ({ (updateLoop d pre).1 with
             DepthMap := mapPut (updateLoop d pre).1.DepthMap u.InstrumentId di2 }, .fail e) := by
      simp [updateLoop, holdDI, hfail]
    have hswitch : depthSwitch d r = updateLoop d r.Data := by
      unfold depthSwitch
      rw [if_neg (by simp [hA]), if_pos hA]
    unfold WSHotDepths.loadWSDepthTableResponse
    rw [if_neg (by simp [hT]), if_neg (by simp [hV]), hswitch, hdata, happ, hstep]
  · intro d2 hsw
    refine ⟨load_eq_of_switch_ok d r d2 hT hV hsw, ?_⟩
    intro hall hbad
    exact finalLoop_inversion r.Data d2 hall hbad

/-- Witness for C6 amended: (a) the two-entry partial counterexample message
stops at the failing first entry, leaving the fresh registry untouched; (b)
an update-arm checksum failure for a known instrument `A` returns the error
with `A`'s (mutated-in-place) book re-stored and nothing after it processed;
(c) with a fall-through action the final check runs over the fully applied
post-switch state. -/
theorem C6_failure_scope_witness :
    c6d.loadWSDepthTableResponse c6r
      = ((snapshotLoop { c6d with Table := "spot/depth" } []).1, .fail (chkErrMsg ""))
    ∧ c6bd.loadWSDepthTableResponse c6br
      = ({ c6bd with DepthMap := mapPut c6bd.DepthMap "A" c6bbook },
         .fail (chkErrMsg "99:1:101:1"))
    ∧ c4d.loadWSDepthTableResponse c4r = (c4d, finalLoop c4d c4r.Data) := by
  refine ⟨?_, ?_, ?_⟩
  · exact (C6_failure_scope c6d c6r [] [c6uGood] c6uBad rfl (by decide) rfl).1 rfl
      (by intro v hv; cases hv) (by decide)
  · exact (C6_failure_scope c6bd c6br [] [] c6bu rfl (by decide) rfl).2.1 c6bbook c6bbook
      (chkErrMsg "99:1:101:1") rfl (by decide) (by decide) (by decide)
  · exact ((C6_failure_scope c4d c4r [] [] c4u rfl (by decide) rfl).2.2 c4d (by decide)).1

/-- C9 counterexample: the same one-entry payload for a never-seen
instrument, carrying a wrong checksum, is ACCEPTED when sent with action
`"update"` (outcome ok, book installed) but REJECTED when sent as the
equivalent `"partial"` snapshot (error, not installed) — the two paths do
not behave identically. -/
theorem C9_counterexample :
    (calCrc32 c9u.Asks c9u.Bids).2 ≠ c9u.Checksum
    ∧ (c9d.loadWSDepthTableResponse c9rUpd).2 = .ok
    ∧ (mapGet (c9d.loadWSDepthTableResponse c9rUpd).1.DepthMap "C").isSome = true
    ∧ (c9d.loadWSDepthTableResponse c9rPart).2.isFail = true
    ∧ mapGet (c9d.loadWSDepthTableResponse c9rPart).1.DepthMap "C" = none := by
  decide

/-- C9 amended: an `"update"` payload for an absent instrument goes through
`newDepthItem`, whose checksum-validation error is discarded: the new book is
installed unconditionally (no checksum-based rejection), and the outcome is
just that of the final best-bid/best-ask check. -/
theorem C9_update_installs_unconditionally (d : WSHotDepths) (r : WSDepthTableResponse)
    (u : WsDepthUpdates)
    (hA : r.Action = "update") (hT : d.Table = r.Table) (hV : r.Valid = true)
    (hdata : r.Data = [u])
    (habs : mapGet d.DepthMap u.InstrumentId = none)
    (hni : (newDepthItem u).2 = .ok) :
    (d.loadWSDepthTableResponse r).1.DepthMap
      = mapPut d.DepthMap u.InstrumentId (newDepthItem u).1
    ∧ (d.loadWSDepthTableResponse r).2
      = finalLoop { d with DepthMap := mapPut d.DepthMap u.InstrumentId (newDepthItem u).1 }
          [u] := by
  have hswitch : depthSwitch d r
      = ({ d with DepthMap := mapPut d.DepthMap u.InstrumentId (newDepthItem u).1 }, .ok) := by
    unfold depthSwitch
    rw [if_neg (by simp [hA]), if_pos hA, hdata]
    simp only [updateLoop, habs]
    rcases hnieq : newDepthItem u with ⟨ni, o⟩
    rw [hnieq] at hni
    have ho : o = .ok := hni
    subst ho
    simp [updateLoop]
  unfold WSHotDepths.loadWSDepthTableResponse
  rw [if_neg (by simp [hT]), if_neg (by simp [hV]), hswitch, hdata]
  exact ⟨rfl, rfl⟩

/-- Witness for C9 amended: the counterexample's `"update"` message: despite
the checksum mismatch the book is installed and the outcome is the final
check's. -/
theorem C9_update_installs_unconditionally_witness :
    ((calCrc32 c9u.Asks c9u.Bids).2 ≠ c9u.Checksum ∧ (newDepthItem c9u).2 = .ok
      ∧ mapGet c9d.DepthMap "C" = none)
    ∧ (c9d.loadWSDepthTableResponse c9rUpd).1.DepthMap
        = mapPut c9d.DepthMap "C" (newDepthItem c9u).1
    ∧ (c9d.loadWSDepthTableResponse c9rUpd).2
        = finalLoop { c9d with DepthMap := mapPut c9d.DepthMap "C" (newDepthItem c9u).1 }
            [c9u] := by
  refine ⟨⟨by decide, by decide, by decide⟩, ?_⟩
  exact C9_update_installs_unconditionally c9d c9rUpd c9u rfl rfl (by decide) rfl (by decide)
    (by decide)

/-- C10: the trailing validation loop dereferences the map entry and both
`Left()` nodes without nil checks: a valid depth message whose action is
neither `"partial"` nor `"update"` for an unknown instrument drives
`loadWSDepthTableResponse` into a nil-pointer panic instead of an error
return. -/
theorem C10_final_check_panics :
    c10r.Valid = true
    ∧ ((NewWSHotDepths "spot/depth").loadWSDepthTableResponse c10r).2.isGopanic = true := by
  decide

/-- C8 counterexample: a message that every candidate decode accepts
structurally (as Go's JSON unmarshal does for `"null"`) but that no validity
predicate accepts, and whose text is not `"pong"`: `loadResponse` returns no
variant AND no error — refuting "when no variant matches it returns an error
carrying the last decode error". -/
theorem C8_counterexample : loadResponse c8msg = (none, none) := by decide

/-- C8 amended: `loadResponse` tries EventResponse, DepthTableResponse,
generic TableResponse, ErrorResponse in that fixed order and returns the
first variant that decodes and validates, then the pong literal; when
nothing matches it returns no variant together with the last underlying
decode error — which is absent whenever the final (ErrorResponse) decode
succeeded structurally. -/
theorem C8_classifier_first_match (m : RawMsg) : loadResponse m = classifySpec m := by
  rcases m with ⟨text, de, dd, dt, der⟩
  cases de <;> cases dd <;> cases dt <;> cases der <;>
    simp only [loadResponse, loadResponseDtr, loadResponseTbl, loadResponseErr,
      loadResponsePong, classifySpec, tryVariant, exErr, Option.orElse] <;>
    split_ifs <;> simp_all
